import Mathlib

/-!
Verification of the MNIST GAN tutorial notebook (src/notebooks/gan.ipynb).

The notebook is a linear script: it loads MNIST, defines a cyclic batch
generator, defines a generative and a discriminative feed-forward network,
constructs a GANInference object, and runs a training loop of 15000
iterations that periodically saves figures of generated samples.

This file gives a shallow embedding of the notebook's own code:
  * the Python generator function (cyclic batch selection with wrap-around,
    pixel normalization by 1/255 and Bernoulli binarization),
  * the two network-definition functions as compositions of dense layers,
  * the output-directory setup guarded by an existence check,
  * the training loop (iteration count, periodic figure saving with
    zero-padded file names, per-figure sample selection by a fixed index
    vector), and
  * the plot routine (4x4 grid, 28x28 reshape of each sample).

Arrays are embedded as Lists (rows of the MNIST array as list elements),
machine integers as Nat/Int, randomness as explicit parameters (a uniform
draw per binarized pixel, a seed function for np.random.randint), and
fallible library calls (np.reshape, os.makedirs, the grid cell lookup in
plot) as Option/Except valued functions.
-/

namespace GanNotebook

universe u

variable {ρ : Type u}

/-- Python slice array[a:b] for 0 ≤ a ≤ b: the elements at indices
a, a+1, ..., b-1, clamped to the length of the array. -/
def slice (array : List ρ) (a b : Nat) : List ρ :=
  (array.drop a).take (b - a)

/-- One iteration of the while-True body of the notebook's generator
function, before normalization and binarization: from the current start
pointer it computes the raw batch (with wrap-around concatenating the tail
of the array with its head) and the updated start pointer.

Source:
    stop = start + batch_size
    diff = stop - array.shape[0]
    if diff <= 0:
      batch = array[start:stop]
      start += batch_size
    else:
      batch = np.concatenate((array[start:], array[:diff]))
      start = diff
diff is an int that can be negative, so it is embedded as Int; the start
pointer never goes negative (it starts at 0 and is set to nonnegative
values only), so it is embedded as Nat. -/
def generatorStep (array : List ρ) (batch_size : Nat) (start : Nat) : List ρ × Nat :=
  let stop := start + batch_size
  let diff : Int := (stop : Int) - (array.length : Int)
  if diff ≤ 0 then
    (slice array start stop, start + batch_size)
  else
    (array.drop start ++ array.take diff.toNat, diff.toNat)

/-- Value of the generator's start pointer at the beginning of the k-th
iteration of the while loop (k = 0 right after the generator is created,
where start = 0). -/
def genStart (array : List ρ) (batch_size : Nat) : Nat → Nat
  | 0 => 0
  | k + 1 => (generatorStep array batch_size (genStart array batch_size k)).2

/-- Raw k-th batch yielded by the generator (taken before the
normalization and binarization steps). -/
def rawBatch (array : List ρ) (batch_size k : Nat) : List ρ :=
  (generatorStep array batch_size (genStart array batch_size k)).1

/-- Normalization of one pixel: batch.astype(np.float32) / 255.0, embedded
over the rationals. -/
def normalize (x : Nat) : ℚ :=
  (x : ℚ) / 255

/-- One draw of np.random.binomial(1, p): a Bernoulli trial with success
probability p, embedded with the uniform sample u made explicit (the draw
succeeds exactly when u < p). Its value is the number of successes in one
trial, hence 0 or 1. -/
def binomial1 (p : ℚ) (u : ℚ) : Nat :=
  if u < p then 1 else 0

/-- Normalization and binarization applied elementwise to a raw batch, with
an explicit uniform sample u i j for the pixel in row i, column j. -/
def binarizeBatch (u : Nat → Nat → ℚ) (batch : List (List Nat)) : List (List Nat) :=
  batch.enum.map fun p => p.2.enum.map fun q => binomial1 (normalize q.2) (u p.1 q.1)

/-- Batch actually yielded by the generator: the raw cyclic batch, scaled
by 1/255 and then binarized by the per-pixel Bernoulli draws. -/
def yieldedBatch (array : List (List Nat)) (batch_size : Nat)
    (u : Nat → Nat → ℚ) (k : Nat) : List (List Nat) :=
  binarizeBatch u (rawBatch array batch_size k)

/-- One full execution of the while-True body of the generator, as seen by
one next() call: the body runs straight through the branch, ends at its
single yield statement, and never takes a path that skips the yield. A
Sum.inl result is a reached yield (carrying the batch and the updated
start pointer); a Sum.inr result would be a loop iteration that came back
around without yielding, which this body never produces. -/
def generatorBodyRun (array : List ρ) (batch_size : Nat) (start : Nat) :
    (List ρ × Nat) ⊕ Nat :=
  Sum.inl (generatorStep array batch_size start)

/-- Semantics of next() on the generator with a fuel bound on the number of
while-loop iterations it may run before reaching a yield: none means the
fuel was exhausted before a yield was reached. -/
def generatorNext (array : List ρ) (batch_size : Nat) :
    Nat → Nat → Option (List ρ × Nat)
  | 0, _ => none
  | fuel + 1, start =>
    match generatorBodyRun array batch_size start with
    | Sum.inl r => some r
    | Sum.inr s => generatorNext array batch_size fuel s

/-- Model of os.makedirs: the file system is the set of existing
directories (a list of paths); creating a directory that already exists
raises FileExistsError (default exist_ok semantics), otherwise the
directory is added. -/
def makedirs (fs : List String) (path : String) : Except String (List String) :=
  if path ∈ fs then Except.error "FileExistsError" else Except.ok (path :: fs)

/-- Embedding of the notebook's output-directory setup:
    if not os.path.exists(out_dir):
      os.makedirs(out_dir)
The second component records whether a creation call was performed. -/
def outDirSetup (fs : List String) (out_dir : String) :
    Except String (List String × Bool) :=
  if out_dir ∈ fs then Except.ok (fs, false)
  else (makedirs fs out_dir).map fun fs2 => (fs2, true)

/-- The rectified linear activation tf.nn.relu, over the rationals. -/
def relu (x : ℚ) : ℚ :=
  max x 0

/-- Dot product of two equal-length vectors. -/
def dot (xs ws : List ℚ) : ℚ :=
  (List.zipWith (fun a b => a * b) xs ws).sum

/-- Embedding of tf.layers.dense(input, units, activation): a fully
connected layer. The learned parameters are passed explicitly, one
(weight-column, bias) pair per output unit, so the number of units of the
layer is the length of the parameter list; each output entry is the
activation applied to the affine combination of the input row. -/
def dense (params : List (List ℚ × ℚ)) (act : ℚ → ℚ)
    (input : List (List ℚ)) : List (List ℚ) :=
  input.map fun row => params.map fun p => act (dot row p.1 + p.2)

/-- Embedding of the notebook's generative_network:
    net = tf.layers.dense(eps, 128, activation=tf.nn.relu)
    net = tf.layers.dense(net, 784, activation=tf.sigmoid)
tf.sigmoid is framework code, passed here as the explicit activation
argument sigmoid (its defining property, that every value lies in [0, 1],
is a hypothesis of the shape theorem). -/
def generative_network (sigmoid : ℚ → ℚ) (p1 p2 : List (List ℚ × ℚ))
    (eps : List (List ℚ)) : List (List ℚ) :=
  dense p2 sigmoid (dense p1 relu eps)

/-- Embedding of the notebook's discriminative_network:
    net = tf.layers.dense(x, 128, activation=tf.nn.relu)
    net = tf.layers.dense(net, 1, activation=None)
activation=None is the identity: the single output per row is an
unconstrained logit with no final activation applied. -/
def discriminative_network (q1 q2 : List (List ℚ × ℚ))
    (x : List (List ℚ)) : List (List ℚ) :=
  dense q2 id (dense q1 relu x)

/-- Events observable in the training loop: saving figure number i, and
the parameter update of iteration t (each update consumes one batch). -/
inductive Ev where
  | save (i : Nat)
  | update (t : Nat)
deriving DecidableEq

/-- Output directory of the notebook. -/
def out_dir : String := "/tmp/out"

/-- Python str.zfill(width): pad the string with leading zero characters
up to the given width. -/
def zfill (width : Nat) (s : String) : String :=
  if s.length < width
  then String.mk (List.replicate (width - s.length) '0') ++ s
  else s

/-- File name of the i-th saved figure:
os.path.join(out_dir, format string) applied to str(i).zfill(3). -/
def figName (i : Nat) : String :=
  out_dir ++ "/" ++ zfill 3 (toString i) ++ ".png"

/-- State of the training loop: the figure counter i, the list of file
names saved so far (in order), the iterations at which a figure was saved,
the row-index vector used for each saved figure, the number of batches
consumed from the generator, the number of inference.update calls, and the
event trace accumulated in reverse order. -/
structure LoopState where
  i : Nat
  saves : List String
  savedIters : List Nat
  figs : List (List Nat)
  batches : Nat
  updates : Nat
  rtrace : List Ev
deriving DecidableEq

/-- Loop state before the first iteration: i = 0, nothing saved yet. -/
def initLoop : LoopState :=
  ⟨0, [], [], [], 0, 0, []⟩

/-- One iteration of the training loop
    for t in range(inference.n_iter):
      if t % inference.n_print == 0:
        samples = sess.run(x); samples = samples[idx, ]
        fig = plot(samples); plt.savefig(... str(i).zfill(3) ...); i += 1
      x_batch = next(x_train_generator)
      info_dict = inference.update(feed_dict= ...)
idx is the row-index vector chosen before the loop; it is a parameter and
is therefore the same at every save. -/
def loopBody (n_print : Nat) (idx : List Nat) (s : LoopState) (t : Nat) : LoopState :=
  let s1 :=
    if t % n_print == 0 then
      { s with
          i := s.i + 1,
          saves := s.saves ++ [figName s.i],
          savedIters := s.savedIters ++ [t],
          figs := s.figs ++ [idx],
          rtrace := Ev.save s.i :: s.rtrace }
    else s
  { s1 with
      batches := s1.batches + 1,
      updates := s1.updates + 1,
      rtrace := Ev.update t :: s1.rtrace }

/-- The training loop, run for n_iter iterations. -/
def runLoop (n_iter n_print : Nat) (idx : List Nat) : LoopState :=
  (List.range n_iter).foldl (loopBody n_print idx) initLoop

/-- Number of printing iterations among 0, ..., n - 1. -/
def printCount (n_print n : Nat) : Nat :=
  ((List.range n).filter fun t => t % n_print == 0).length

/-- Event trace of the loop in forward order: in each printing iteration
the figure save happens first, then the update; other iterations are a
single update. -/
def loopEvents (n_iter n_print : Nat) : List Ev :=
  (List.range n_iter).flatMap fun t =>
    (if t % n_print == 0 then [Ev.save (printCount n_print t)] else [])
      ++ [Ev.update t]

/-- Predicate for figure-save events. -/
def isSaveEv : Ev → Bool
  | Ev.save _ => true
  | Ev.update _ => false

/-- Predicate for parameter-update events. -/
def isUpdateEv : Ev → Bool
  | Ev.save _ => false
  | Ev.update _ => true

/-- Top-level steps of the notebook script, in the order the cells run:
load the data, define the batch generator, define the two networks,
construct the inference object, then the training loop's own events. -/
inductive ScriptStep where
  | loadData
  | defineBatchGenerator
  | defineNetworks
  | constructInference
  | loopEv (e : Ev)
deriving DecidableEq

/-- The notebook as a linear sequence of steps: the four setup cells in
their order, followed by the training loop's event trace. -/
def script : List ScriptStep :=
  [ScriptStep.loadData, ScriptStep.defineBatchGenerator,
   ScriptStep.defineNetworks, ScriptStep.constructInference]
    ++ (loopEvents 15000 1000).map ScriptStep.loopEv

/-- Predicate for figure-save script steps. -/
def isSaveStep : ScriptStep → Bool
  | ScriptStep.loopEv (Ev.save _) => true
  | _ => false

/-- Predicate for parameter-update script steps. -/
def isUpdateStep : ScriptStep → Bool
  | ScriptStep.loopEv (Ev.update _) => true
  | _ => false

/-- Model of np.random.randint(m, size=size): a vector of size independent
draws, each uniform over [0, m), with the underlying random source made
explicit as the function u (draw j is u j reduced modulo m). -/
def np_randint (m size : Nat) (u : Nat → Nat) : List Nat :=
  (List.range size).map fun j => u j % m

/-- Rows of numpy reshape(r, c) on a flat vector: row i is the slice of c
consecutive elements starting at i * c. -/
def reshapeRows (r c : Nat) (xs : List ℚ) : List (List ℚ) :=
  (List.range r).map fun i => (xs.drop (i * c)).take c

/-- Model of numpy reshape(r, c): fails (raises) unless the vector has
exactly r * c elements. -/
def np_reshape (r c : Nat) (xs : List ℚ) : Option (List (List ℚ)) :=
  if xs.length = r * c then some (reshapeRows r c xs) else none

/-- Number of cells of the 4x4 GridSpec used by plot. -/
def gridCells : Nat := 16

/-- Embedding of the notebook's plot function: each sample, in enumeration
order, is placed in the next cell of the 4x4 grid (gs[i] raises from the
17th sample on) and shown reshaped to 28x28 (reshape raises when the
sample does not have exactly 784 elements). The figure is the list of
reshaped images; none models a raised error. -/
def plot (samples : List (List ℚ)) : Option (List (List (List ℚ))) :=
  samples.enum.mapM fun p =>
    if p.1 < gridCells then np_reshape 28 28 p.2 else none

/-- Branch characterization of generatorStep in terms of Nat arithmetic:
the diff <= 0 branch is taken exactly when start + batch_size fits inside
the array. -/
theorem generatorStep_eq (array : List ρ) (M s : Nat) :
    generatorStep array M s =
      if s + M ≤ array.length then ((array.drop s).take M, s + M)
      else (array.drop s ++ array.take (s + M - array.length), s + M - array.length) := by
  have hcast : (((s + M : Nat) : Int) - (array.length : Int)).toNat
      = s + M - array.length := by omega
  simp only [generatorStep, slice, Nat.add_sub_cancel_left]
  split
  · next h => rw [if_pos (by omega)]
  · next h => rw [if_neg (by omega), hcast]

/-- The updated start pointer stays within [0, N]. -/
theorem generatorStep_snd_le (array : List ρ) (M s : Nat)
    (hMN : M ≤ array.length) (hs : s ≤ array.length) :
    (generatorStep array M s).2 ≤ array.length := by
  rw [generatorStep_eq]
  split <;> simp <;> omega

/-- The updated start pointer is congruent to start + batch_size modulo N. -/
theorem generatorStep_snd_mod (array : List ρ) (M s : Nat)
    (hs : s ≤ array.length) :
    (generatorStep array M s).2 % array.length = (s + M) % array.length := by
  rw [generatorStep_eq]
  split
  · rfl
  · next h =>
    have hge : array.length ≤ s + M := by omega
    simp only []
    rw [Nat.mod_eq_sub_mod hge]

/-- Pointwise description of one raw batch: starting at pointer s ≤ N with
1 ≤ batch_size ≤ N, the batch consists of the rows at indices
(s + j) % N for j = 0, ..., batch_size - 1, in that order. -/
theorem generatorStep_fst (array : List ρ) (d : ρ) (M s : Nat)
    (hM : 1 ≤ M) (hMN : M ≤ array.length) (hs : s ≤ array.length) :
    (generatorStep array M s).1 =
      (List.range M).map (fun j => array.getD ((s + j) % array.length) d) := by
  have hN : 0 < array.length := lt_of_lt_of_le hM hMN
  rw [generatorStep_eq]
  split
  · next h =>
    apply List.ext_getElem
    · simp; omega
    · intro i h1 h2
      have hi : i < M := by simpa using h2
      have hsi : s + i < array.length := by omega
      simp only [List.getElem_take, List.getElem_drop, List.getElem_map,
        List.getElem_range]
      rw [Nat.mod_eq_of_lt hsi, List.getD_eq_getElem _ _ hsi]
  · next h =>
    have hdiff : s + M - array.length ≤ array.length := by omega
    apply List.ext_getElem
    · simp; omega
    · intro i h1 h2
      have hi : i < M := by simpa using h2
      have hlen : (array.drop s).length = array.length - s := by simp
      simp only [List.getElem_map, List.getElem_range]
      rcases lt_or_le i (array.length - s) with hcase | hcase
      · have hsi : s + i < array.length := by omega
        rw [List.getElem_append_left (by omega : i < (array.drop s).length),
          List.getElem_drop, Nat.mod_eq_of_lt hsi,
          List.getD_eq_getElem _ _ hsi]
      · have hwrap : s + i - array.length < array.length := by omega
        have hmod : (s + i) % array.length = s + i - array.length := by
          rw [Nat.mod_eq_sub_mod (by omega), Nat.mod_eq_of_lt hwrap]
        rw [List.getElem_append_right (by omega : (array.drop s).length ≤ i),
          List.getElem_take, hmod, List.getD_eq_getElem _ _ hwrap]
        congr 1
        simp
        omega

/-- Invariant of the start pointer: at the beginning of every iteration it
lies in [0, N] and is congruent to k * batch_size modulo N. -/
theorem genStart_invariant (array : List ρ) (M : Nat)
    (hMN : M ≤ array.length) (k : Nat) :
    genStart array M k ≤ array.length ∧
      genStart array M k % array.length = k * M % array.length := by
  induction k with
  | zero => exact ⟨Nat.zero_le _, by simp [genStart]⟩
  | succ k ih =>
    obtain ⟨hle, hmod⟩ := ih
    refine ⟨generatorStep_snd_le array M _ hMN hle, ?_⟩
    show (generatorStep array M (genStart array M k)).2 % array.length = _
    rw [generatorStep_snd_mod array M _ hle, ← Nat.mod_add_mod, hmod,
      Nat.mod_add_mod, Nat.succ_mul]

/-- C1: Cyclic wrap-around batch selection. For every array with N rows and
every batch_size M with 1 ≤ M ≤ N, the k-th raw batch yielded by
generator(array, M) (taken before the normalization and binarization
steps) consists of exactly the M rows of the array at indices
(k * M + j) % N for j = 0, 1, ..., M - 1, in that order. -/
theorem cyclic_batch_selection (array : List ρ) (d : ρ) (M k : Nat)
    (hM : 1 ≤ M) (hMN : M ≤ array.length) :
    rawBatch array M k =
      (List.range M).map (fun j => array.getD ((k * M + j) % array.length) d) := by
  obtain ⟨hle, hmod⟩ := genStart_invariant array M hMN k
  rw [rawBatch, generatorStep_fst array d M _ hM hMN hle]
  refine List.map_congr_left fun j hj => ?_
  rw [← Nat.mod_add_mod, hmod, Nat.mod_add_mod]

/-- Witness for C1 at a concrete input: array of 3 rows, batch size 2,
fourth batch (k = 3) wraps around. -/
theorem cyclic_batch_selection_witness :
    rawBatch [10, 20, 30] 2 3 =
      (List.range 2).map (fun j => [10, 20, 30].getD ((3 * 2 + j) % 3) 0) :=
  cyclic_batch_selection [10, 20, 30] 0 2 3 (by decide) (by decide)

/-- C2: Batch-index invariant and fixed batch shape. For every array with
N rows and every batch_size M with 1 ≤ M ≤ N, the generator's start
pointer lies in [0, N] at every iteration boundary (in particular before
every yield), and every raw batch yielded has exactly M rows, never fewer,
even on a wrap-around step. -/
theorem batch_invariant (array : List ρ) (M k : Nat)
    (hM : 1 ≤ M) (hMN : M ≤ array.length) :
    genStart array M k ≤ array.length ∧ (rawBatch array M k).length = M := by
  obtain ⟨hle, _⟩ := genStart_invariant array M hMN k
  refine ⟨hle, ?_⟩
  rw [rawBatch, generatorStep_fst array (array.getD 0 (array.get ⟨0, by omega⟩))
    M _ hM hMN hle]
  simp

/-- Witness for C2 at a concrete input: array of 3 rows, batch size 2,
pointer and batch length at k = 5. -/
theorem batch_invariant_witness :
    genStart [10, 20, 30] 2 5 ≤ 3 ∧ (rawBatch [10, 20, 30] 2 5).length = 2 := by
  have h := batch_invariant [10, 20, 30] 2 5 (by decide) (by decide)
  simpa using h

/-- Rows of a raw batch are rows of the array: the batch is built from
slices of the array only. -/
theorem rawBatch_subset (array : List ρ) (M k : Nat) :
    ∀ row ∈ rawBatch array M k, row ∈ array := by
  intro row hrow
  rw [rawBatch, generatorStep_eq] at hrow
  revert hrow
  split
  · intro hrow
    exact List.mem_of_mem_drop (List.mem_of_mem_take hrow)
  · intro hrow
    rcases List.mem_append.mp hrow with h | h
    · exact List.mem_of_mem_drop h
    · exact List.mem_of_mem_take h

/-- C3: Normalization and binarization. For every input array whose
elements are integers in [0, 255], the scaling by 1/255 maps every pixel of
every raw batch into [0, 1], and every element of every batch yielded by
the generator is either 0 or 1; so batches delivered to training are
binarized even though the stored array itself holds raw values. -/
theorem normalization_binarization (array : List (List Nat)) (M k : Nat)
    (u : Nat → Nat → ℚ)
    (hpix : ∀ row ∈ array, ∀ x ∈ row, x ≤ 255) :
    (∀ row ∈ rawBatch array M k, ∀ x ∈ row,
        0 ≤ normalize x ∧ normalize x ≤ 1) ∧
      (∀ row ∈ yieldedBatch array M u k, ∀ v ∈ row, v = 0 ∨ v = 1) := by
  constructor
  · intro row hrow x hx
    have hx255 : x ≤ 255 := hpix row (rawBatch_subset array M k row hrow) x hx
    constructor
    · exact div_nonneg (by positivity) (by norm_num)
    · rw [normalize, div_le_one (by norm_num)]
      exact_mod_cast hx255
  · intro row hrow v hv
    rw [yieldedBatch, binarizeBatch] at hrow
    obtain ⟨p, _, hp⟩ := List.mem_map.mp hrow
    subst hp
    obtain ⟨q, _, hq⟩ := List.mem_map.mp hv
    subst hq
    rw [binomial1]
    split
    · right; rfl
    · left; rfl

/-- Witness for C3 at a concrete input: a 2 x 2 array of raw pixel values,
batch size 1, first batch, uniform draws all equal to 1/2. -/
theorem normalization_binarization_witness :
    (∀ row ∈ rawBatch [[0, 255], [128, 7]] 1 0, ∀ x ∈ row,
        0 ≤ normalize x ∧ normalize x ≤ 1) ∧
      (∀ row ∈ yieldedBatch [[0, 255], [128, 7]] 1 (fun _ _ => 1 / 2) 0,
        ∀ v ∈ row, v = 0 ∨ v = 1) :=
  normalization_binarization [[0, 255], [128, 7]] 1 0 (fun _ _ => 1 / 2)
    (by decide)

/-- C6: Productivity of the batch generator. For every array (any number
of rows, including when batch_size exceeds the row count) and every
batch_size, a call to next() terminates with a yielded batch after exactly
one iteration of the while-True loop, even though the generator as a whole
is an infinite stream. -/
theorem generator_productive (array : List ρ) (batch_size start : Nat) :
    generatorNext array batch_size 1 start =
      some (generatorStep array batch_size start) :=
  rfl

/-- C7: Directory-creation guard. For every file-system state and path,
the setup step never raises: when out_dir already exists it performs no
creation call and leaves the state unchanged, when out_dir is absent it
performs the creation call; and running the setup twice in a row leaves
the same state as running it once. -/
theorem out_dir_guard (fs : List String) (out_dir : String) :
    outDirSetup fs out_dir =
      (if out_dir ∈ fs then Except.ok (fs, false)
       else Except.ok (out_dir :: fs, true)) ∧
      (outDirSetup fs out_dir).bind
          (fun r => (outDirSetup r.1 out_dir).map fun r2 => r2.1) =
        (outDirSetup fs out_dir).map fun r => r.1 := by
  constructor
  · rw [outDirSetup]
    split
    · rfl
    · next h => rw [makedirs, if_neg h]; rfl
  · by_cases h : out_dir ∈ fs
    · simp [outDirSetup, makedirs, if_pos h, Except.map, Except.bind]
    · simp [outDirSetup, makedirs, if_neg h, Except.map, Except.bind,
        List.mem_cons]

/-- C5: Network shapes and ranges. With parameter lists of the sizes the
notebook requests (128 and 784 units for the generative network, 128 and
1 unit for the discriminative network) and any activation sigmoid whose
values lie in [0, 1], generative_network maps an [M, d] noise input to an
[M, 784] output with every element in [0, 1], and discriminative_network
maps an [M, 784] input to an [M, 1] output, one unconstrained scalar logit
per row with no final activation. -/
theorem network_shapes (sigmoid : ℚ → ℚ) (p1 p2 q1 q2 : List (List ℚ × ℚ))
    (eps x : List (List ℚ)) (M d : Nat)
    (hsig : ∀ t, 0 ≤ sigmoid t ∧ sigmoid t ≤ 1)
    (hp1 : p1.length = 128) (hp2 : p2.length = 784)
    (hq1 : q1.length = 128) (hq2 : q2.length = 1)
    (heps : eps.length = M) (hepsd : ∀ row ∈ eps, row.length = d)
    (hx : x.length = M) (hx784 : ∀ row ∈ x, row.length = 784) :
    (generative_network sigmoid p1 p2 eps).length = M ∧
      (∀ row ∈ generative_network sigmoid p1 p2 eps,
        row.length = 784 ∧ ∀ v ∈ row, 0 ≤ v ∧ v ≤ 1) ∧
      (discriminative_network q1 q2 x).length = M ∧
      (∀ row ∈ discriminative_network q1 q2 x, row.length = 1) := by
  refine ⟨?_, ?_, ?_, ?_⟩
  · simp [generative_network, dense, heps]
  · intro row hrow
    rw [generative_network, dense] at hrow
    obtain ⟨r0, _, hr0⟩ := List.mem_map.mp hrow
    subst hr0
    refine ⟨by simp [hp2], ?_⟩
    intro v hv
    obtain ⟨p, _, hp⟩ := List.mem_map.mp hv
    subst hp
    exact hsig _
  · simp [discriminative_network, dense, hx]
  · intro row hrow
    rw [discriminative_network, dense] at hrow
    obtain ⟨r0, _, hr0⟩ := List.mem_map.mp hrow
    subst hr0
    simp [hq2]

set_option maxRecDepth 4000 in
/-- Witness for C5 at a concrete input: one noise row of dimension 1, one
data row of dimension 784, constant sigmoid 1/2, zero parameters of the
requested sizes. -/
theorem network_shapes_witness :
    (generative_network (fun _ => 1 / 2) (List.replicate 128 ([], 0))
        (List.replicate 784 ([], 0)) [[0]]).length = 1 ∧
      (∀ row ∈ generative_network (fun _ => 1 / 2) (List.replicate 128 ([], 0))
          (List.replicate 784 ([], 0)) [[0]],
        row.length = 784 ∧ ∀ v ∈ row, 0 ≤ v ∧ v ≤ 1) ∧
      (discriminative_network (List.replicate 128 ([], 0))
          (List.replicate 1 ([], 0)) [List.replicate 784 0]).length = 1 ∧
      (∀ row ∈ discriminative_network (List.replicate 128 ([], 0))
          (List.replicate 1 ([], 0)) [List.replicate 784 0],
        row.length = 1) :=
  network_shapes (fun _ => 1 / 2) (List.replicate 128 ([], 0))
    (List.replicate 784 ([], 0)) (List.replicate 128 ([], 0))
    (List.replicate 1 ([], 0)) [[0]] [List.replicate 784 0] 1 1
    (fun _ => by norm_num)
    (by simp) (by simp) (by simp) (by simp)
    (by simp) (by simp) (by simp) (by simp)

/-- Closed form of the loop state after n iterations: the counter equals
the number of printing iterations so far, the file names are figName 0,
figName 1, ... in order, figures are saved exactly at the iterations
divisible by n_print, every saved figure uses the same index vector idx,
every iteration consumes exactly one batch and performs exactly one
update, and the reversed trace is the event list of the loop. -/
theorem runLoop_char (n_print : Nat) (idx : List Nat) (n : Nat) :
    runLoop n n_print idx =
      ⟨printCount n_print n,
        (List.range (printCount n_print n)).map figName,
        (List.range n).filter (fun t => t % n_print == 0),
        List.replicate (printCount n_print n) idx,
        n, n,
        (loopEvents n n_print).reverse⟩ := by
  induction n with
  | zero => rfl
  | succ n ih =>
    have hstep : runLoop (n + 1) n_print idx
        = loopBody n_print idx (runLoop n n_print idx) n := by
      rw [runLoop, runLoop, List.range_succ, List.foldl_append,
        List.foldl_cons, List.foldl_nil]
    have hfilter : ((List.range (n + 1)).filter fun t => t % n_print == 0)
        = ((List.range n).filter fun t => t % n_print == 0)
          ++ if n % n_print == 0 then [n] else [] := by
      rw [List.range_succ, List.filter_append]
      congr 1
      by_cases hb : n % n_print == 0 <;> simp [List.filter_singleton, hb]
    have hcount : printCount n_print (n + 1)
        = printCount n_print n + if n % n_print == 0 then 1 else 0 := by
      rw [printCount, hfilter, List.length_append, printCount]
      split <;> rfl
    have hevents : loopEvents (n + 1) n_print
        = loopEvents n n_print
          ++ ((if n % n_print == 0 then [Ev.save (printCount n_print n)] else [])
              ++ [Ev.update n]) := by
      rw [loopEvents, List.range_succ, List.flatMap_append,
        List.flatMap_singleton, loopEvents]
    rw [hstep, ih, loopBody]
    by_cases h : n % n_print == 0 <;>
      simp [h, hcount, hfilter, hevents, List.range_succ,
        List.replicate_succ', List.reverse_append]

/-- Step equation for the number of printing iterations. -/
theorem printCount_succ (n_print n : Nat) :
    printCount n_print (n + 1)
      = printCount n_print n + if n % n_print == 0 then 1 else 0 := by
  rw [printCount, List.range_succ, List.filter_append, List.length_append,
    printCount]
  congr 1
  by_cases hb : n % n_print == 0 <;> simp [List.filter_singleton, hb]

/-- Closed form of the number of printing iterations for the notebook's
n_print = 1000: the number of multiples of 1000 below n. -/
theorem printCount_1000 (n : Nat) :
    printCount 1000 n = n / 1000 + if n % 1000 = 0 then 0 else 1 := by
  induction n with
  | zero => rfl
  | succ n ih =>
    rw [printCount_succ, ih]
    by_cases h : n % 1000 = 0 <;> by_cases h2 : (n + 1) % 1000 = 0 <;>
      simp [h, h2] <;> omega

/-- Step equation for the loop event trace. -/
theorem loopEvents_succ (n_iter n_print : Nat) :
    loopEvents (n_iter + 1) n_print
      = loopEvents n_iter n_print
        ++ ((if n_iter % n_print == 0
              then [Ev.save (printCount n_print n_iter)] else [])
            ++ [Ev.update n_iter]) := by
  rw [loopEvents, List.range_succ, List.flatMap_append,
    List.flatMap_singleton, loopEvents]

set_option maxRecDepth 40000 in
/-- C4: Fixed iteration count and periodic rendering. For every choice of
the plotting index vector, the training loop executes exactly
n_iter = 15000 iterations, consuming exactly one batch and performing
exactly one inference.update call per iteration (15000 of each); a figure
is saved exactly at the iterations t with t % n_print == 0 (n_print =
1000), which makes exactly 15 figures, named with consecutive zero-padded
indices 000 through 014. -/
theorem training_loop_counts (idx : List Nat) :
    runLoop 15000 1000 idx =
      ⟨15,
        ["/tmp/out/000.png", "/tmp/out/001.png", "/tmp/out/002.png",
         "/tmp/out/003.png", "/tmp/out/004.png", "/tmp/out/005.png",
         "/tmp/out/006.png", "/tmp/out/007.png", "/tmp/out/008.png",
         "/tmp/out/009.png", "/tmp/out/010.png", "/tmp/out/011.png",
         "/tmp/out/012.png", "/tmp/out/013.png", "/tmp/out/014.png"],
        (List.range 15000).filter (fun t => t % 1000 == 0),
        List.replicate 15 idx,
        15000, 15000,
        (loopEvents 15000 1000).reverse⟩ := by
  have h15 : printCount 1000 15000 = 15 := by
    rw [printCount_1000]
    norm_num
  rw [runLoop_char, h15]
  congr 1

/-- Head of the loop trace: iteration 0 is a printing iteration, so the
trace begins with the save of figure 000 followed by the update of
iteration 0. -/
theorem loopEvents_take2 (n_print n : Nat) (h : 0 < n) :
    (loopEvents n n_print).take 2 = [Ev.save 0, Ev.update 0] := by
  obtain ⟨m, rfl⟩ : ∃ m, n = m + 1 := ⟨n - 1, by omega⟩
  rw [loopEvents, List.range_succ_eq_map, List.flatMap_cons]
  simp [printCount]

/-- Cons decomposition of the script: the four setup steps, then the save
of figure 000, then the update of iteration 0, then the rest of the loop. -/
theorem script_decomp :
    ∃ rest, script = ScriptStep.loadData :: ScriptStep.defineBatchGenerator ::
      ScriptStep.defineNetworks :: ScriptStep.constructInference ::
      ScriptStep.loopEv (Ev.save 0) :: ScriptStep.loopEv (Ev.update 0) :: rest := by
  have hB : loopEvents 15000 1000
      = Ev.save 0 :: Ev.update 0 :: (loopEvents 15000 1000).drop 2 := by
    conv_lhs => rw [← List.take_append_drop 2 (loopEvents 15000 1000)]
    rw [loopEvents_take2 1000 15000 (by norm_num), List.cons_append,
      List.cons_append, List.nil_append]
  obtain ⟨tail, htail⟩ : ∃ tail, loopEvents 15000 1000
      = Ev.save 0 :: Ev.update 0 :: tail := ⟨_, hB⟩
  refine ⟨tail.map ScriptStep.loopEv, ?_⟩
  rw [script, htail]
  simp only [List.map_cons, List.cons_append, List.nil_append]

/-- Script position 4 holds the save of figure 000. -/
theorem script_getElem4 :
    script[4]? = some (ScriptStep.loopEv (Ev.save 0)) := by
  obtain ⟨rest, h⟩ := script_decomp
  rw [h]
  simp

/-- C8 counterexample: in the script as executed, the save of figure 000
(script position 4) happens before the loop's first parameter update
(script position 5), so it is false that no figure is saved before the
loop's first parameter update. -/
theorem first_figure_save_precedes_first_update :
    script.findIdx isSaveStep = 4 ∧
      script.findIdx isUpdateStep = 5 ∧
      script.findIdx isSaveStep < script.findIdx isUpdateStep := by
  obtain ⟨rest, hs⟩ := script_decomp
  have h1 : script.findIdx isSaveStep = 4 := by
    rw [hs]
    simp [List.findIdx_cons, isSaveStep]
  have h2 : script.findIdx isUpdateStep = 5 := by
    rw [hs]
    simp [List.findIdx_cons, isUpdateStep]
  exact ⟨h1, h2, by rw [h1, h2]; omega⟩

/-- Number of save and update events in the loop trace. -/
theorem countP_loopEvents (n_print n : Nat) :
    (loopEvents n n_print).countP isSaveEv = printCount n_print n ∧
      (loopEvents n n_print).countP isUpdateEv = n := by
  induction n with
  | zero => exact ⟨rfl, rfl⟩
  | succ n ih =>
    rw [loopEvents_succ, printCount_succ]
    by_cases h : n % n_print == 0 <;>
      simp [h, List.countP_append, List.countP_cons, isSaveEv, isUpdateEv,
        ih.1, ih.2]

/-- C8 amended: the script is the stated linear sequence load data, define
batch generator, define networks, construct inference, then the training
loop; every figure save occurs inside the loop, after inference
construction (no save occurs at a script position before 4); but within a
printing iteration the figure save precedes that iteration's update, so
the figure-000 save (position 4) comes right before the loop's first
parameter update (position 5); in total the loop part has exactly 15 saves
and 15000 updates. -/
theorem script_step_order :
    script.take 6
        = [ScriptStep.loadData, ScriptStep.defineBatchGenerator,
           ScriptStep.defineNetworks, ScriptStep.constructInference,
           ScriptStep.loopEv (Ev.save 0), ScriptStep.loopEv (Ev.update 0)] ∧
      (∀ i e, script[i]? = some e → isSaveStep e = true → 4 ≤ i) ∧
      script.countP isSaveStep = 15 ∧
      script.countP isUpdateStep = 15000 := by
  have hcomp : ∀ e, isSaveStep (ScriptStep.loopEv e) = isSaveEv e := by
    intro e
    cases e <;> rfl
  have hcomp2 : ∀ e, isUpdateStep (ScriptStep.loopEv e) = isUpdateEv e := by
    intro e
    cases e <;> rfl
  obtain ⟨rest, hs⟩ := script_decomp
  refine ⟨?_, ?_, ?_, ?_⟩
  · rw [hs]
    rfl
  · intro i e hget hsave
    rcases Nat.lt_or_ge i 4 with hi | hi
    · exfalso
      interval_cases i <;>
        (rw [hs] at hget
         simp only [List.getElem?_cons_zero, List.getElem?_cons_succ,
           Option.some.injEq] at hget
         subst hget
         simp [isSaveStep] at hsave)
    · exact hi
  · rw [script, List.countP_append, List.countP_map]
    have h0 : (([ScriptStep.loadData, ScriptStep.defineBatchGenerator,
        ScriptStep.defineNetworks,
        ScriptStep.constructInference] : List ScriptStep).countP isSaveStep)
        = 0 := by
      rfl
    rw [h0]
    have hfun : (isSaveStep ∘ ScriptStep.loopEv) = isSaveEv := by
      funext e
      exact hcomp e
    rw [hfun, (countP_loopEvents 1000 15000).1, printCount_1000]
    norm_num
  · rw [script, List.countP_append, List.countP_map]
    have h0 : (([ScriptStep.loadData, ScriptStep.defineBatchGenerator,
        ScriptStep.defineNetworks,
        ScriptStep.constructInference] : List ScriptStep).countP isUpdateStep)
        = 0 := by
      rfl
    rw [h0]
    have hfun : (isUpdateStep ∘ ScriptStep.loopEv) = isUpdateEv := by
      funext e
      exact hcomp2 e
    rw [hfun, (countP_loopEvents 1000 15000).2]

/-- Witness for C8 amended at a concrete position: position 4 holds the
save of figure 000 and satisfies the after-construction bound. -/
theorem script_step_order_witness :
    script[4]? = some (ScriptStep.loopEv (Ev.save 0)) ∧ 4 ≤ 4 := by
  have h : script[4]? = some (ScriptStep.loopEv (Ev.save 0)) := script_getElem4
  exact ⟨h, script_step_order.2.1 4 _ h rfl⟩

/-- Invariant: the figure index vectors recorded by the loop are all equal
to the idx parameter chosen before the loop. -/
theorem runLoop_figs_replicate (n_iter n_print : Nat) (idx : List Nat) :
    (runLoop n_iter n_print idx).figs
      = List.replicate (runLoop n_iter n_print idx).i idx := by
  rw [runLoop_char]

/-- C9: the 16 row indices used to select samples for plotting are drawn
once, before the training loop starts, from [0, M) with M = 128 (possibly
with repeats), and the very same 16 indices are reused for every one of
the 15 saved figures, so all figures across the run show the generator's
output at the same fixed sample positions. -/
theorem fixed_plot_indices (u : Nat → Nat) :
    (np_randint 128 16 u).length = 16 ∧
      (∀ x ∈ np_randint 128 16 u, x < 128) ∧
      (runLoop 15000 1000 (np_randint 128 16 u)).figs
        = List.replicate 15 (np_randint 128 16 u) := by
  have h15 : printCount 1000 15000 = 15 := by
    rw [printCount_1000]
    norm_num
  refine ⟨by simp [np_randint], ?_, ?_⟩
  · intro x hx
    rw [np_randint] at hx
    obtain ⟨j, _, rfl⟩ := List.mem_map.mp hx
    exact Nat.mod_lt _ (by norm_num)
  · rw [runLoop_figs_replicate, runLoop_char, h15]

/-- Witness for C9 at a concrete random source: the identity seed. -/
theorem fixed_plot_indices_witness :
    (runLoop 15000 1000 (np_randint 128 16 (fun j => j))).figs
      = List.replicate 15 (np_randint 128 16 (fun j => j)) :=
  (fixed_plot_indices (fun j => j)).2.2

/-- Plot succeeds on any enumerated suffix whose positions stay below the
grid size and whose samples all have 784 elements. -/
theorem plot_enumFrom_isSome (rows : List (List ℚ)) :
    ∀ n, n + rows.length ≤ 16 → (∀ r ∈ rows, r.length = 784) →
    (List.mapM' (fun p =>
      if p.1 < gridCells then np_reshape 28 28 p.2 else none)
      (List.enumFrom n rows)).isSome := by
  induction rows with
  | nil =>
    intro n hlen hrow
    simp [List.mapM']
  | cons r rs ih =>
    intro n hlen hrow
    have hn : n < gridCells := by
      rw [gridCells]
      simp at hlen
      omega
    have hr : r.length = 784 := hrow r (by simp)
    have hres : np_reshape 28 28 r = some (reshapeRows 28 28 r) := by
      rw [np_reshape, if_pos (by rw [hr])]
    obtain ⟨y, hy⟩ := Option.isSome_iff_exists.mp
      (ih (n + 1) (by simp at hlen ⊢; omega)
        (fun r2 h2 => hrow r2 (by simp [h2])))
    rw [List.enumFrom]
    simp [List.mapM', hn, hres, hy]

/-- C10: plot's grid and reshape preconditions are always met by the
loop's calls. plot lays samples into a fixed 4x4 grid and reshapes each
sample to 28x28, so it requires at most 16 samples each of exactly 784
elements; since the loop always passes the 16 rows selected by idx from
the [M, 784] model output, the grid indexing and the reshape in plot never
fail. -/
theorem plot_never_fails (samples : List (List ℚ)) (idx : List Nat)
    (hrows : ∀ row ∈ samples, row.length = 784)
    (hidx : idx.length = 16)
    (hmem : ∀ j ∈ idx, j < samples.length) :
    (plot (idx.map fun j => samples.getD j [])).isSome := by
  rw [plot, List.enum_eq_enumFrom, ← List.mapM'_eq_mapM]
  apply plot_enumFrom_isSome
  · rw [List.length_map, hidx]
  · intro r hr
    obtain ⟨j, hj, rfl⟩ := List.mem_map.mp hr
    have hjlen : j < samples.length := hmem j hj
    rw [List.getD_eq_getElem _ _ hjlen]
    exact hrows _ (List.getElem_mem _)

/-- Witness for C10 at a concrete input: one 784-element sample row and an
index vector of 16 zeros. -/
theorem plot_never_fails_witness :
    (plot ((List.replicate 16 0).map
      fun j => [List.replicate 784 (0 : ℚ)].getD j [])).isSome :=
  plot_never_fails [List.replicate 784 (0 : ℚ)] (List.replicate 16 0)
    (by
      intro row h
      rw [List.mem_singleton] at h
      rw [h, List.length_replicate])
    (by rw [List.length_replicate])
    (by
      intro j h
      rw [List.eq_of_mem_replicate h, List.length_singleton]
      exact Nat.one_pos)

end GanNotebook
